import Mathlib

/-!
The program `step5/hello.c` of tiny-x64-helloworld.

A verification development for `src/step5/hello.c`: one string constant and
three routines, two of which are inline x86-64 assembly that trap into the
Linux kernel.

The embedding is a small-step machine.

* Registers hold 64-bit values: naturals, reduced modulo `2 ^ 64` on every
  register write.
* Each C function is a list of instructions; the inline assembly is taken
  line by line from the source.  What the compiler adds around it is modelled
  only as far as it is visible: the load of the global `str` into the register
  it chose for operand `%0`, the `call`s in `nomain` and the return at the end
  of each function.
* The kernel is the environment.  What it answers to a trap (the value it
  leaves in `rax`, and the values `syscall` leaves in `rcx` and `r11`) is an
  arbitrary parameter of every run.
-/

namespace HelloWorld

/-! ## Data -/

/-- The string literal of line 1, as the 14 bytes of the array `char[14]`:
the characters of `"hello, world\n"` and the terminating NUL. -/
def strLiteral : List Nat :=
  "hello, world\n".toList.map Char.toNat ++ [0]

/-- The sixteen general purpose registers of x86-64. -/
inductive Reg where
  | rax | rbx | rcx | rdx | rsi | rdi | rbp | rsp
  | r8 | r9 | r10 | r11 | r12 | r13 | r14 | r15
  deriving DecidableEq, Repr

/-- The registers the compiler may choose for the input operand `"r"(str)` of
the `asm` statement in `myprint`: a general register that is not in the
clobber list `"rax", "rdi", "rsi", "rdx"` and is not the stack pointer. -/
inductive Operand where
  | rbx | rcx | rbp
  | r8 | r9 | r10 | r11 | r12 | r13 | r14 | r15
  deriving DecidableEq, Repr

/-- The register an operand choice stands for. -/
def Operand.reg : Operand → Reg
  | .rbx => .rbx | .rcx => .rcx | .rbp => .rbp
  | .r8 => .r8 | .r9 => .r9 | .r10 => .r10 | .r11 => .r11
  | .r12 => .r12 | .r13 => .r13 | .r14 => .r14 | .r15 => .r15

/-- The three functions of the translation unit. -/
inductive Fn where
  | myprint | myexit | nomain
  deriving DecidableEq, Repr

/-- The instructions that occur in the program. -/
inductive Instr where
  /-- `movq $imm, %dst`. -/
  | movImm (imm : Nat) (dst : Reg)
  /-- `movq %src, %dst`. -/
  | movReg (src dst : Reg)
  /-- The load of the global variable `str` into a register. -/
  | loadStr (dst : Reg)
  /-- `xor %src, %dst`. -/
  | xor (src dst : Reg)
  /-- `syscall`. -/
  | syscall
  /-- A C function call. -/
  | call (f : Fn)
  /-- The return at the end of a C function. -/
  | ret
  deriving DecidableEq, Repr

/-- `myprint`, lines 3-14.  Operand `%0` is `str` in the register `op`. -/
def myprint (op : Operand) : List Instr :=
  [ .loadStr op.reg,
    .movImm 1 .rax,
    .movImm 1 .rdi,
    .movReg op.reg .rsi,
    .movImm 13 .rdx,
    .syscall,
    .ret ]

/-- `myexit`, lines 16-22. -/
def myexit : List Instr :=
  [ .movImm 60 .rax,
    .xor .rdi .rdi,
    .syscall,
    .ret ]

/-- `nomain`, lines 24-29: the two calls, then the end of the function. -/
def nomain : List Instr :=
  [ .call .myprint,
    .call .myexit,
    .ret ]

/-- The body of a function. -/
def body (op : Operand) : Fn → List Instr
  | .myprint => myprint op
  | .myexit => myexit
  | .nomain => nomain

/-- How a process stands: still executing, terminated by the `exit` system
call with a status, or returned from the function it was invoked at. -/
inductive Status where
  | running
  | exited (code : Nat)
  | returned
  deriving DecidableEq, Repr

/-- A system-call request as the kernel decodes it at a trap. -/
inductive Request where
  /-- `write(fd, buf, count)`, system call 1. -/
  | write (fd buf count : Nat)
  /-- `exit(status)`, system call 60. -/
  | exit (status : Nat)
  /-- Any other system-call number. -/
  | other (nr : Nat)
  deriving DecidableEq, Repr

/-- What the kernel hands back from one trap: the return value in `rax`, and
the values the `syscall` instruction leaves in `rcx` and `r11`. -/
structure Reply where
  ret : Nat
  rcx : Nat
  r11 : Nat
  deriving DecidableEq, Repr

/-- The environment of a run: the reply to the `n`-th trap, for every `n`. -/
abbrev Kernel := Nat → Reply

/-- The machine state. -/
structure State where
  /-- Register file. -/
  regs : Reg → Nat
  /-- Byte-addressed memory. -/
  mem : Nat → Nat
  /-- The value of the global variable `char *str`. -/
  str : Nat
  /-- Function and instruction index of the next instruction. -/
  pc : Fn × Nat
  /-- Return points of the calls in progress. -/
  stack : List (Fn × Nat)
  /-- The bytes written so far to each file descriptor. -/
  out : Nat → List Nat
  /-- The requests made so far, oldest first. -/
  trace : List Request
  /-- Whether the process still runs. -/
  status : Status

/-! ## Semantics -/

/-- Width of a register. -/
def wordSize : Nat := 2 ^ 64

/-- Write a 64-bit value to a register. -/
def State.setReg (s : State) (r : Reg) (v : Nat) : State :=
  { s with regs := fun x => if x = r then v % wordSize else s.regs x }

/-- Move to the instruction after the current one. -/
def State.next (s : State) : State :=
  { s with pc := (s.pc.1, s.pc.2 + 1) }

/-- The `n` bytes of memory from address `p` on. -/
def readBytes (mem : Nat → Nat) (p n : Nat) : List Nat :=
  (List.range n).map fun i => mem (p + i)

/-- The request a trap makes: the number in `rax`, and the arguments of that
system call in `rdi`, `rsi`, `rdx`. -/
def decode (regs : Reg → Nat) : Request :=
  if regs .rax = 1 then .write (regs .rdi) (regs .rsi) (regs .rdx)
  else if regs .rax = 60 then .exit (regs .rdi)
  else .other (regs .rax)

/-- The number of bytes a `write` of `count` bytes transferred when it returned
`ret`: `ret` itself when it is a count, none when it is an error code (a
negative number, as a 64-bit value above every count). -/
def transferred (ret count : Nat) : Nat :=
  if ret % wordSize ≤ count then ret % wordSize else 0

/-- The kernel's side of a trap.  `exit` ends the process with the low eight
bits of its argument as exit code and does not come back.  Every other call
comes back at the next instruction with the reply in `rax`, `rcx` and `r11`;
`write` has by then appended the transferred bytes to its descriptor. -/
def trap (k : Kernel) (s : State) : State :=
  let rep := k s.trace.length
  let req := decode s.regs
  let s1 := { s with trace := s.trace ++ [req] }
  match req with
  | .exit status => { s1 with status := .exited (status % 256) }
  | .write fd buf count =>
      let bytes := readBytes s.mem buf (transferred rep.ret count)
      let s2 := { s1 with out := fun d => if d = fd % 2 ^ 32 then s.out d ++ bytes else s.out d }
      (((s2.setReg .rax rep.ret).setReg .rcx rep.rcx).setReg .r11 rep.r11).next
  | .other _ =>
      (((s1.setReg .rax rep.ret).setReg .rcx rep.rcx).setReg .r11 rep.r11).next

/-- Execute one instruction. -/
def exec (k : Kernel) (s : State) : Instr → State
  | .movImm imm dst => (s.setReg dst imm).next
  | .movReg src dst => (s.setReg dst (s.regs src)).next
  | .loadStr dst => (s.setReg dst s.str).next
  | .xor src dst => (s.setReg dst (s.regs dst ^^^ s.regs src)).next
  | .syscall => trap k s
  | .call f => { s with pc := (f, 0), stack := (s.pc.1, s.pc.2 + 1) :: s.stack }
  | .ret =>
      match s.stack with
      | [] => { s with status := .returned }
      | r :: rest => { s with pc := r, stack := rest }

/-- The step function.  A process that has exited or returned has no step, and
neither has one whose program counter is outside its function. -/
def step (k : Kernel) (op : Operand) (s : State) : Option State :=
  match s.status with
  | .running => ((body op s.pc.1).get? s.pc.2).map (exec k s)
  | _ => none

/-- Run for at most `n` steps, stopping where there is no step. -/
def run (k : Kernel) (op : Operand) : Nat → State → State
  | 0, s => s
  | n + 1, s =>
      match step k op s with
      | none => s
      | some t => run k op n t

/-- A state at the entry of `f`, with the rest as in `s`. -/
def invoke (f : Fn) (s : State) : State :=
  { s with pc := (f, 0), status := .running }

/-- The process image is loaded: the literal lies in memory inside the address
space and `str` points to its first byte. -/
def Loaded (s : State) : Prop :=
  s.str + strLiteral.length ≤ wordSize ∧
    readBytes s.mem s.str strLiteral.length = strLiteral

instance (s : State) : Decidable (Loaded s) := by
  unfold Loaded; infer_instance

/-- The message: the literal without its terminator. -/
def message : List Nat := strLiteral.take 13

/-- Length of a C string: the number of bytes before the first NUL. -/
def cStrlen (bytes : List Nat) : Nat :=
  (bytes.takeWhile fun b => b != 0).length

/-! ## A concrete process -/

/-- A memory with the literal at address `0x402000` and zeroes elsewhere. -/
def mem0 : Nat → Nat := fun a =>
  if 0x402000 ≤ a then strLiteral.getD (a - 0x402000) 0 else 0

/-- A process image about to be entered: the literal at `0x402000`, every
register `0xdeadbeef`, nothing written. -/
def s0 : State :=
  { regs := fun _ => 0xdeadbeef
    mem := mem0
    str := 0x402000
    pc := (.nomain, 0)
    stack := []
    out := fun _ => []
    trace := []
    status := .running }

/-- A second process state: the same 13 message bytes at the same address,
other register contents, other memory around the message, a call in progress
and one request already made. -/
def s1 : State :=
  { regs := fun r => if r = .rdi then 3 else 0
    mem := fun a => if 0x402000 ≤ a ∧ a < 0x40200d then strLiteral.getD (a - 0x402000) 0 else 0xff
    str := 0x402000
    pc := (.nomain, 0)
    stack := [(.nomain, 0)]
    out := fun _ => []
    trace := [.other 12]
    status := .running }

/-- A kernel that accepts every write in full. -/
def kFull : Kernel := fun _ => { ret := 13, rcx := 0x401020, r11 := 0x246 }

/-- A kernel whose answer to every call is `-EBADF`: the descriptor is closed. -/
def kClosed : Kernel := fun _ => { ret := 2 ^ 64 - 9, rcx := 0x401020, r11 := 0x246 }

/-- A kernel that accepts five bytes of a write. -/
def kPartial : Kernel := fun _ => { ret := 5, rcx := 0x401020, r11 := 0x246 }

/-! ## Lemmas on the machine -/

theorem run_of_step_none (k : Kernel) (op : Operand) (n : Nat) (s : State)
    (h : step k op s = none) : run k op n s = s := by
  cases n with
  | zero => rfl
  | succ n => simp [run, h]

theorem run_add (k : Kernel) (op : Operand) (m n : Nat) (s : State) :
    run k op (m + n) s = run k op n (run k op m s) := by
  induction m generalizing s with
  | zero => simp [run]
  | succ m ih =>
      rw [Nat.succ_add]
      cases h : step k op s with
      | none => simp [run, h, run_of_step_none]
      | some t => simp [run, h, ih]

/-- One step, when there is one. -/
theorem run_one (k : Kernel) (op : Operand) {s t : State} (h : step k op s = some t) :
    run k op 1 s = t := by
  simp [run, h]

/-- The operand register is none of the four registers the `asm` statement of
`myprint` sets. -/
theorem Operand.reg_ne (op : Operand) :
    op.reg ≠ .rax ∧ op.reg ≠ .rdi ∧ op.reg ≠ .rsi ∧ op.reg ≠ .rdx ∧
    Reg.rax ≠ op.reg ∧ Reg.rdi ≠ op.reg ∧ Reg.rsi ≠ op.reg ∧ Reg.rdx ≠ op.reg := by
  cases op <;> decide

/-- After twelve steps from its entry `nomain` stands still. -/
theorem step_run_nomain (k : Kernel) (op : Operand) (s : State) :
    step k op (run k op 12 (invoke .nomain s)) = none := by
  obtain ⟨h1, h2, h3, h4, h5, h6, h7, h8⟩ := op.reg_ne
  simp [run, step, invoke, body, nomain, myprint, myexit, exec, State.setReg, State.next,
    trap, decode, wordSize, h1, h2, h3, h4, h5, h6, h7, h8]

/-- More than twelve steps from the entry of `nomain` do what twelve do. -/
theorem run_nomain_add (k : Kernel) (op : Operand) (s : State) (n : Nat) :
    run k op (12 + n) (invoke .nomain s) = run k op 12 (invoke .nomain s) := by
  rw [run_add, run_of_step_none _ _ _ _ (step_run_nomain k op s)]

/-- The requests `nomain` has made when it has ended. -/
theorem trace_run_nomain (k : Kernel) (op : Operand) (s : State) :
    (run k op 12 (invoke .nomain s)).trace =
      s.trace ++ [.write 1 (s.str % wordSize) 13, .exit 0] := by
  obtain ⟨h1, h2, h3, h4, h5, h6, h7, h8⟩ := op.reg_ne
  simp [run, step, invoke, body, nomain, myprint, myexit, exec, State.setReg, State.next,
    trap, decode, wordSize, h1, h2, h3, h4, h5, h6, h7, h8]

/-- How `nomain` ends. -/
theorem status_run_nomain (k : Kernel) (op : Operand) (s : State) :
    (run k op 12 (invoke .nomain s)).status = .exited 0 := by
  obtain ⟨h1, h2, h3, h4, h5, h6, h7, h8⟩ := op.reg_ne
  simp [run, step, invoke, body, nomain, myprint, myexit, exec, State.setReg, State.next,
    trap, decode, wordSize, h1, h2, h3, h4, h5, h6, h7, h8]

/-- What `nomain` has appended to descriptor 1 when it has ended: the bytes at
`str` that the kernel reported as transferred. -/
theorem out_run_nomain (k : Kernel) (op : Operand) (s : State) :
    (run k op 12 (invoke .nomain s)).out 1 =
      s.out 1 ++ readBytes s.mem (s.str % wordSize)
        (transferred (k s.trace.length).ret 13) := by
  obtain ⟨h1, h2, h3, h4, h5, h6, h7, h8⟩ := op.reg_ne
  simp [run, step, invoke, body, nomain, myprint, myexit, exec, State.setReg, State.next,
    trap, decode, wordSize, h1, h2, h3, h4, h5, h6, h7, h8]

/-- No descriptor other than 1 is written by `nomain`. -/
theorem out_other_run_nomain (k : Kernel) (op : Operand) (s : State) (d : Nat) (hd : d ≠ 1) :
    (run k op 12 (invoke .nomain s)).out d = s.out d := by
  obtain ⟨h1, h2, h3, h4, h5, h6, h7, h8⟩ := op.reg_ne
  simp [run, step, invoke, body, nomain, myprint, myexit, exec, State.setReg, State.next,
    trap, decode, wordSize, h1, h2, h3, h4, h5, h6, h7, h8, hd]

/-- The state of `nomain` at the `syscall` of `myexit`. -/
theorem run_nomain_at_exit (k : Kernel) (op : Operand) (s : State) :
    (run k op 11 (invoke .nomain s)).status = .running ∧
    (run k op 11 (invoke .nomain s)).pc = (.myexit, 2) ∧
    (run k op 11 (invoke .nomain s)).regs .rax = 60 ∧
    (run k op 11 (invoke .nomain s)).regs .rdi = 0 ∧
    (run k op 11 (invoke .nomain s)).trace = s.trace ++ [.write 1 (s.str % wordSize) 13] := by
  obtain ⟨h1, h2, h3, h4, h5, h6, h7, h8⟩ := op.reg_ne
  simp [run, step, invoke, body, nomain, myprint, myexit, exec, State.setReg, State.next,
    trap, decode, wordSize, h1, h2, h3, h4, h5, h6, h7, h8]

/-- The state of `nomain` at the `syscall` of `myprint`. -/
theorem run_nomain_at_write (k : Kernel) (op : Operand) (s : State) :
    (run k op 6 (invoke .nomain s)).status = .running ∧
    (run k op 6 (invoke .nomain s)).pc = (.myprint, 5) ∧
    (run k op 6 (invoke .nomain s)).mem = s.mem ∧
    (run k op 6 (invoke .nomain s)).regs .rsi = s.str % wordSize ∧
    (run k op 6 (invoke .nomain s)).regs .rdx = 13 ∧
    (run k op 6 (invoke .nomain s)).trace = s.trace := by
  obtain ⟨h1, h2, h3, h4, h5, h6, h7, h8⟩ := op.reg_ne
  simp [run, step, invoke, body, nomain, myprint, myexit, exec, State.setReg, State.next,
    trap, decode, wordSize, h1, h2, h3, h4, h5, h6, h7, h8]

/-- The number and argument registers of `nomain` at its two traps. -/
theorem regs_run_nomain (k : Kernel) (op : Operand) (s : State) (r : Reg)
    (hr : r = .rax ∨ r = .rdi ∨ r = .rsi ∨ r = .rdx) :
    (run k op 6 (invoke .nomain s)).regs r =
      (if r = .rax then 1 else if r = .rdi then 1 else
        if r = .rsi then s.str % wordSize else 13) ∧
    (run k op 11 (invoke .nomain s)).regs r =
      (if r = .rax then 60 else if r = .rdi then 0 else
        if r = .rsi then s.str % wordSize else 13) := by
  obtain ⟨h1, h2, h3, h4, h5, h6, h7, h8⟩ := op.reg_ne
  rcases hr with rfl | rfl | rfl | rfl <;>
  simp [run, step, invoke, body, nomain, myprint, myexit, exec, State.setReg, State.next,
    trap, decode, wordSize, h1, h2, h3, h4, h5, h6, h7, h8]

/-- The state of `myprint` at its `syscall`. -/
theorem run_myprint_at_write (k : Kernel) (op : Operand) (s : State) :
    (run k op 5 (invoke .myprint s)).status = .running ∧
    (run k op 5 (invoke .myprint s)).pc = (.myprint, 5) ∧
    (run k op 5 (invoke .myprint s)).regs .rax = 1 ∧
    (run k op 5 (invoke .myprint s)).regs .rdi = 1 ∧
    (run k op 5 (invoke .myprint s)).regs .rsi = s.str % wordSize ∧
    (run k op 5 (invoke .myprint s)).regs .rdx = 13 ∧
    (run k op 5 (invoke .myprint s)).mem = s.mem ∧
    (run k op 5 (invoke .myprint s)).str = s.str := by
  obtain ⟨h1, h2, h3, h4, h5, h6, h7, h8⟩ := op.reg_ne
  simp [run, step, invoke, body, nomain, myprint, myexit, exec, State.setReg, State.next,
    trap, decode, wordSize, h1, h2, h3, h4, h5, h6, h7, h8]

/-- What `myprint` has appended to descriptor 1 when its `syscall` is done. -/
theorem out_run_myprint (k : Kernel) (op : Operand) (s : State) :
    (run k op 6 (invoke .myprint s)).out 1 =
      s.out 1 ++ readBytes s.mem (s.str % wordSize)
        (transferred (k s.trace.length).ret 13) := by
  obtain ⟨h1, h2, h3, h4, h5, h6, h7, h8⟩ := op.reg_ne
  simp [run, step, invoke, body, nomain, myprint, myexit, exec, State.setReg, State.next,
    trap, decode, wordSize, h1, h2, h3, h4, h5, h6, h7, h8]

/-- No descriptor other than 1 is written by `myprint`. -/
theorem out_other_run_myprint (k : Kernel) (op : Operand) (s : State) (d : Nat)
    (hd : d ≠ 1) : (run k op 6 (invoke .myprint s)).out d = s.out d := by
  obtain ⟨h1, h2, h3, h4, h5, h6, h7, h8⟩ := op.reg_ne
  simp [run, step, invoke, body, nomain, myprint, myexit, exec, State.setReg, State.next,
    trap, decode, wordSize, h1, h2, h3, h4, h5, h6, h7, h8, hd]

/-- In its first eleven steps `nomain` neither returns nor stands at its own
return. -/
theorem run_nomain_lt (k : Kernel) (op : Operand) (s : State) (m : Nat) (hm : m < 12) :
    (run k op m (invoke .nomain s)).status ≠ .returned ∧
      (run k op m (invoke .nomain s)).pc ≠ (.nomain, 2) := by
  obtain ⟨h1, h2, h3, h4, h5, h6, h7, h8⟩ := op.reg_ne
  interval_cases m <;>
  simp [run, step, invoke, body, nomain, myprint, myexit, exec, State.setReg, State.next,
    trap, decode, wordSize, h1, h2, h3, h4, h5, h6, h7, h8]

theorem readBytes_length (mem : Nat → Nat) (p n : Nat) :
    (readBytes mem p n).length = n := by
  simp [readBytes]

theorem readBytes_take (mem : Nat → Nat) (p : Nat) {m n : Nat} (h : m ≤ n) :
    readBytes mem p m = (readBytes mem p n).take m := by
  simp [readBytes, ← List.map_take, List.take_range, Nat.min_eq_left h]

theorem strLiteral_eq :
    strLiteral = [104, 101, 108, 108, 111, 44, 32, 119, 111, 114, 108, 100, 10, 0] := by
  decide

theorem message_eq :
    message = [104, 101, 108, 108, 111, 44, 32, 119, 111, 114, 108, 100, 10] := by
  decide

theorem transferred_le (ret count : Nat) : transferred ret count ≤ count := by
  unfold transferred
  split <;> omega

theorem Loaded.str_lt {s : State} (h : Loaded s) : s.str < wordSize := by
  have h1 := h.1
  have h2 : strLiteral.length = 14 := by decide
  omega

theorem Loaded.str_mod {s : State} (h : Loaded s) : s.str % wordSize = s.str :=
  Nat.mod_eq_of_lt h.str_lt

/-- In a loaded image the first `m ≤ 13` bytes at `str` are those of the
message. -/
theorem Loaded.readBytes_eq {s : State} (h : Loaded s) {m : Nat} (hm : m ≤ 13) :
    readBytes s.mem s.str m = message.take m := by
  have h2 : strLiteral.length = 14 := by decide
  rw [readBytes_take s.mem s.str (show m ≤ strLiteral.length by omega), h.2, message,
    List.take_take, Nat.min_eq_left hm]

/-- In a loaded image the byte after the message is the terminator. -/
theorem Loaded.terminator {s : State} (h : Loaded s) : s.mem (s.str + 13) = 0 := by
  have h2 := h.2
  rw [strLiteral_eq] at h2
  simp [readBytes, List.range_succ] at h2
  exact h2.2.2.2.2.2.2.2.2.2.2.2.2.2

/-! ## Claims -/

/-- C1, as stated, fails.  With standard output closed the kernel answers the
write with an error (the 64-bit value of -9, EBADF); started on a loaded image
with nothing on descriptor 1, the program then exits with status 0 and
descriptor 1 still holds nothing.  With a kernel that takes five bytes of the
thirteen, descriptor 1 ends with the five bytes of hello. -/
theorem nomain_stdout_not_always_message :
    Loaded s0 ∧ s0.out 1 = [] ∧
    (run kClosed .rcx 12 (invoke .nomain s0)).status = .exited 0 ∧
    (run kClosed .rcx 12 (invoke .nomain s0)).out 1 = [] ∧
    (run kClosed .rcx 12 (invoke .nomain s0)).out 1 ≠ message ∧
    (run kPartial .rcx 12 (invoke .nomain s0)).status = .exited 0 ∧
    (run kPartial .rcx 12 (invoke .nomain s0)).out 1 = [104, 101, 108, 108, 111] ∧
    (run kPartial .rcx 12 (invoke .nomain s0)).out 1 ≠ message := by
  decide

/-- C1, amended.  For every invocation of the program on a loaded image with
nothing yet on descriptor 1 (every register content, every operand register,
every answer of the kernel), the bytes on descriptor 1 once the process has
ended are the first bytes of the message, as many as the write reported as
transferred; they are the whole message, thirteen bytes, exactly when the write
returned 13. -/
theorem nomain_stdout_initial_segment (k : Kernel) (op : Operand) (s : State) (n : Nat)
    (hl : Loaded s) (hout : s.out 1 = []) :
    (run k op (12 + n) (invoke .nomain s)).out 1 =
        message.take (transferred (k s.trace.length).ret 13) ∧
    ((run k op (12 + n) (invoke .nomain s)).out 1 <+: message) ∧
    ((run k op (12 + n) (invoke .nomain s)).out 1 = message ↔
        (k s.trace.length).ret % wordSize = 13) := by
  have hle := transferred_le (k s.trace.length).ret 13
  have hout2 : (run k op (12 + n) (invoke .nomain s)).out 1 =
      message.take (transferred (k s.trace.length).ret 13) := by
    rw [run_nomain_add, out_run_nomain, hout, hl.str_mod, hl.readBytes_eq hle,
      List.nil_append]
  refine ⟨hout2, ?_, ?_⟩
  · rw [hout2]; exact List.take_prefix _ _
  · rw [hout2]
    have hlen : message.length = 13 := by decide
    constructor
    · intro h
      have h1 := congrArg List.length h
      rw [List.length_take, hlen] at h1
      unfold transferred at h1 hle
      split at h1 <;> omega
    · intro h
      have : transferred (k s.trace.length).ret 13 = 13 := by
        unfold transferred; rw [h]; simp
      rw [this]; exact List.take_of_length_le (by omega)

/-- The amended C1 at the process `s0` under the kernel that takes five
bytes. -/
theorem nomain_stdout_initial_segment_witness :
    Loaded s0 ∧ s0.out 1 = [] ∧
    (run kPartial .rcx (12 + 3) (invoke .nomain s0)).out 1 = message.take 5 :=
  ⟨by decide, rfl, (nomain_stdout_initial_segment kPartial .rcx s0 3 (by decide) rfl).1⟩

/-- C2.  When the write issued by `myprint` is accepted in full (the kernel
returns 13), `myprint` on a loaded image has appended to descriptor 1 exactly
thirteen bytes, the ASCII text of hello, world followed by one byte 0x0A, and
has written nothing to any other descriptor; the same holds of `nomain` once it
has ended. -/
theorem myprint_full_write (k : Kernel) (op : Operand) (s : State) (n : Nat)
    (hl : Loaded s) (hfull : (k s.trace.length).ret = 13) :
    (run k op 6 (invoke .myprint s)).out 1 = s.out 1 ++ message ∧
    (∀ d, d ≠ 1 → (run k op 6 (invoke .myprint s)).out d = s.out d) ∧
    (run k op (12 + n) (invoke .nomain s)).out 1 = s.out 1 ++ message ∧
    (∀ d, d ≠ 1 → (run k op (12 + n) (invoke .nomain s)).out d = s.out d) ∧
    message.length = 13 ∧
    message = "hello, world".toList.map Char.toNat ++ [0x0A] := by
  have ht : transferred (k s.trace.length).ret 13 = 13 := by
    rw [hfull]; decide
  have hm : message.take 13 = message := by decide
  refine ⟨?_, out_other_run_myprint k op s, ?_, ?_, by decide, by decide⟩
  · rw [out_run_myprint, ht, hl.str_mod, hl.readBytes_eq (Nat.le_refl 13), hm]
  · rw [run_nomain_add, out_run_nomain, ht, hl.str_mod, hl.readBytes_eq (Nat.le_refl 13), hm]
  · intro d hd
    rw [run_nomain_add, out_other_run_nomain k op s d hd]

/-- C2 at the process `s0` under the kernel that accepts every write in
full. -/
theorem myprint_full_write_witness :
    Loaded s0 ∧ (kFull s0.trace.length).ret = 13 ∧
    (run kFull .rcx 6 (invoke .myprint s0)).out 1 = s0.out 1 ++ message :=
  ⟨by decide, rfl, (myprint_full_write kFull .rcx s0 0 (by decide) rfl).1⟩

/-- C3.  The exit code of `nomain` is 0: for every register content on entry,
every operand register and every answer of the kernel to the write, the
process ends by `exit`, the request decoded at the trap of `myexit` is
`exit(0)`, it is the last request made, and the exit code is 0. -/
theorem nomain_exit_code (k : Kernel) (op : Operand) (s : State) (n : Nat) :
    (run k op (12 + n) (invoke .nomain s)).status = .exited 0 ∧
    (run k op (12 + n) (invoke .nomain s)).trace.getLast? = some (.exit 0) ∧
    decode (run k op 11 (invoke .nomain s)).regs = .exit 0 := by
  obtain ⟨-, -, hrax, hrdi, -⟩ := run_nomain_at_exit k op s
  rw [run_nomain_add, status_run_nomain, trace_run_nomain]
  refine ⟨rfl, by simp, ?_⟩
  simp [decode, hrax, hrdi]

/-- C4.  The result of the write is never inspected.  Whatever value the
kernel returns in `rax` (a full count, a partial count, a negative error code),
it is in `rax` when the write comes back, and `nomain` goes on to the
`syscall` of `myexit` with `rax = 60` and `rdi = 0` and ends with exit code 0,
having written to no descriptor other than 1.  Under any two kernels the
requests made and the end of the process are the same. -/
theorem write_result_ignored (k k2 : Kernel) (op : Operand) (s : State) (n : Nat) :
    (run k op 7 (invoke .nomain s)).regs .rax = (k s.trace.length).ret % wordSize ∧
    (run k op 11 (invoke .nomain s)).status = .running ∧
    (run k op 11 (invoke .nomain s)).pc = (.myexit, 2) ∧
    (body op .myexit).get? 2 = some .syscall ∧
    (run k op 11 (invoke .nomain s)).regs .rax = 60 ∧
    (run k op 11 (invoke .nomain s)).regs .rdi = 0 ∧
    (run k op (12 + n) (invoke .nomain s)).status = .exited 0 ∧
    (∀ d, d ≠ 1 → (run k op (12 + n) (invoke .nomain s)).out d = s.out d) ∧
    (run k op (12 + n) (invoke .nomain s)).trace =
      (run k2 op (12 + n) (invoke .nomain s)).trace ∧
    (run k op (12 + n) (invoke .nomain s)).status =
      (run k2 op (12 + n) (invoke .nomain s)).status := by
  obtain ⟨hst, hpc, hrax, hrdi, -⟩ := run_nomain_at_exit k op s
  rw [run_nomain_add, run_nomain_add, trace_run_nomain, trace_run_nomain,
    status_run_nomain, status_run_nomain]
  refine ⟨?_, hst, hpc, rfl, hrax, hrdi, rfl, out_other_run_nomain k op s, rfl, rfl⟩
  obtain ⟨h1, h2, h3, h4, h5, h6, h7, h8⟩ := op.reg_ne
  simp [run, step, invoke, body, nomain, myprint, myexit, exec, State.setReg, State.next,
    trap, decode, wordSize, h1, h2, h3, h4, h5, h6, h7, h8]

/-- C5.  Control never returns from the termination call.  The eleventh state
of `nomain` stands at the `syscall` of `myexit`; the step from it is the exit
trap, and the state the trap reaches has no step, so that no number of further
steps changes anything (registers, output, requests).  No state of a run of
`nomain` has returned or stands at the return of `nomain`.  Entered in any
state, `myexit` has ended the process after its three instructions. -/
theorem exit_is_terminal (k : Kernel) (op : Operand) (s : State) :
    (run k op 11 (invoke .nomain s)).pc = (.myexit, 2) ∧
    step k op (run k op 11 (invoke .nomain s)) =
      some (trap k (run k op 11 (invoke .nomain s))) ∧
    step k op (trap k (run k op 11 (invoke .nomain s))) = none ∧
    (∀ n, run k op n (trap k (run k op 11 (invoke .nomain s))) =
      trap k (run k op 11 (invoke .nomain s))) ∧
    (∀ n, run k op (12 + n) (invoke .nomain s) =
      trap k (run k op 11 (invoke .nomain s))) ∧
    (∀ m, (run k op m (invoke .nomain s)).status ≠ .returned ∧
      (run k op m (invoke .nomain s)).pc ≠ (.nomain, 2)) ∧
    (∀ n, (run k op (3 + n) (invoke .myexit s)).status = .exited 0 ∧
      step k op (run k op (3 + n) (invoke .myexit s)) = none) := by
  obtain ⟨hst, hpc, -, -, -⟩ := run_nomain_at_exit k op s
  have hstep : step k op (run k op 11 (invoke .nomain s)) =
      some (trap k (run k op 11 (invoke .nomain s))) := by
    simp [step, hst, hpc, body, myexit, exec]
  have h12 : run k op 12 (invoke .nomain s) = trap k (run k op 11 (invoke .nomain s)) := by
    rw [show 12 = 11 + 1 from rfl, run_add, run_one k op hstep]
  have hend : step k op (trap k (run k op 11 (invoke .nomain s))) = none := by
    rw [← h12]; exact step_run_nomain k op s
  have h3 : step k op (run k op 3 (invoke .myexit s)) = none := by
    simp [run, step, invoke, body, myexit, exec, State.setReg, State.next,
      trap, decode, wordSize]
  refine ⟨hpc, hstep, hend, fun n => run_of_step_none k op n _ hend, ?_, ?_, ?_⟩
  · intro n
    rw [run_nomain_add, h12]
  · intro m
    by_cases hm : m < 12
    · exact run_nomain_lt k op s m hm
    · obtain ⟨n, rfl⟩ : ∃ n, m = 12 + n := ⟨m - 12, by omega⟩
      rw [run_nomain_add]
      refine ⟨by rw [status_run_nomain]; simp, ?_⟩
      rw [h12]
      simp [trap, decode, run_nomain_at_exit k op s, hpc]
  · intro n
    rw [run_add, run_of_step_none k op n _ h3]
    refine ⟨?_, h3⟩
    simp [run, step, invoke, body, myexit, exec, State.setReg, State.next,
      trap, decode, wordSize]

/-- C6.  The length `myprint` passes to write, the immediate 13 it loads into
`rdx`, is the length of the string `str` points to: the number of bytes of the
literal before its NUL, the line feed counted.  So the range given to write,
from `rsi` on for `rdx` bytes, holds exactly the message, lies inside the 14
bytes of the literal, and stops before the terminator, which is the byte right
after it. -/
theorem write_length_is_strlen (k : Kernel) (op : Operand) (s : State) (hl : Loaded s) :
    (myprint op).get? 4 = some (.movImm 13 .rdx) ∧
    (myprint op).get? 5 = some .syscall ∧
    (run k op 5 (invoke .myprint s)).pc = (.myprint, 5) ∧
    (run k op 5 (invoke .myprint s)).regs .rdx = 13 ∧
    (run k op 5 (invoke .myprint s)).regs .rdx =
      cStrlen (readBytes s.mem s.str strLiteral.length) ∧
    cStrlen strLiteral = 13 ∧
    readBytes (run k op 5 (invoke .myprint s)).mem
        ((run k op 5 (invoke .myprint s)).regs .rsi)
        ((run k op 5 (invoke .myprint s)).regs .rdx) = message ∧
    message = "hello, world\n".toList.map Char.toNat ∧
    message.getLast? = some 0x0A ∧
    s.str ≤ (run k op 5 (invoke .myprint s)).regs .rsi ∧
    (run k op 5 (invoke .myprint s)).regs .rsi + (run k op 5 (invoke .myprint s)).regs .rdx
      < s.str + strLiteral.length ∧
    (run k op 5 (invoke .myprint s)).mem
      ((run k op 5 (invoke .myprint s)).regs .rsi +
        (run k op 5 (invoke .myprint s)).regs .rdx) = 0 ∧
    0 ∉ message := by
  obtain ⟨-, hpc, -, -, hrsi, hrdx, hmem, -⟩ := run_myprint_at_write k op s
  have hlen : strLiteral.length = 14 := by decide
  rw [hrsi, hrdx, hmem, hl.str_mod, hl.2, hl.readBytes_eq (Nat.le_refl 13), hlen]
  refine ⟨rfl, rfl, hpc, rfl, by decide, by decide, by decide, by decide, by decide,
    Nat.le_refl _, by omega, hl.terminator, by decide⟩

/-- C6 at the process `s0`. -/
theorem write_length_is_strlen_witness :
    Loaded s0 ∧
    (run kFull .rcx 5 (invoke .myprint s0)).regs .rdx =
      cStrlen (readBytes s0.mem s0.str strLiteral.length) :=
  ⟨by decide, (write_length_is_strlen kFull .rcx s0 (by decide)).2.2.2.2.1⟩

/-- C7.  When `myprint` is at its `syscall` instruction, whatever the registers
held on entry, the registers make the write request of x86-64 Linux with the
fixed inputs: `rax = 1`, `rdi = 1`, `rsi` the address held in `str` (a 64-bit
pointer), `rdx = 13`; the step from there is the trap. -/
theorem myprint_write_request (k : Kernel) (op : Operand) (s : State)
    (hp : s.str < wordSize) :
    (run k op 5 (invoke .myprint s)).status = .running ∧
    (run k op 5 (invoke .myprint s)).pc = (.myprint, 5) ∧
    (body op .myprint).get? 5 = some .syscall ∧
    (run k op 5 (invoke .myprint s)).regs .rax = 1 ∧
    (run k op 5 (invoke .myprint s)).regs .rdi = 1 ∧
    (run k op 5 (invoke .myprint s)).regs .rsi = (run k op 5 (invoke .myprint s)).str ∧
    (run k op 5 (invoke .myprint s)).str = s.str ∧
    (run k op 5 (invoke .myprint s)).regs .rdx = 13 ∧
    decode (run k op 5 (invoke .myprint s)).regs = .write 1 s.str 13 ∧
    step k op (run k op 5 (invoke .myprint s)) =
      some (trap k (run k op 5 (invoke .myprint s))) := by
  obtain ⟨hst, hpc, hrax, hrdi, hrsi, hrdx, -, hstr⟩ := run_myprint_at_write k op s
  rw [Nat.mod_eq_of_lt hp] at hrsi
  refine ⟨hst, hpc, rfl, hrax, hrdi, by rw [hrsi, hstr], hstr, hrdx, ?_, ?_⟩
  · simp [decode, hrax, hrdi, hrsi, hrdx]
  · simp [step, hst, hpc, body, myprint, exec]

/-- C7 at the process `s0`. -/
theorem myprint_write_request_witness :
    s0.str < wordSize ∧
    decode (run kFull .rcx 5 (invoke .myprint s0)).regs = .write 1 0x402000 13 :=
  ⟨by decide, (myprint_write_request kFull .rcx s0 (by decide)).2.2.2.2.2.2.2.2.1⟩

/-- C8.  When `myexit` is at its `syscall` instruction, whatever the registers
held on entry, `rax = 60` and `rdi = 0`, the request `exit(0)`.  This holds in
particular inside `nomain`, where on entry to `myexit` the register `rax` holds
what the kernel returned from write and `rdi` holds the 1 left by `myprint`.
`rdi` is 0 because `xor %rdi, %rdi` leaves 0 whatever `rdi` held. -/
theorem myexit_exit_request (k : Kernel) (op : Operand) (s : State) :
    (run k op 2 (invoke .myexit s)).status = .running ∧
    (run k op 2 (invoke .myexit s)).pc = (.myexit, 2) ∧
    (body op .myexit).get? 2 = some .syscall ∧
    (run k op 2 (invoke .myexit s)).regs .rax = 60 ∧
    (run k op 2 (invoke .myexit s)).regs .rdi = 0 ∧
    decode (run k op 2 (invoke .myexit s)).regs = .exit 0 ∧
    (exec k s (.xor .rdi .rdi)).regs .rdi = 0 ∧
    (run k op 9 (invoke .nomain s)).pc = (.myexit, 0) ∧
    (run k op 9 (invoke .nomain s)).regs .rax = (k s.trace.length).ret % wordSize ∧
    (run k op 9 (invoke .nomain s)).regs .rdi = 1 ∧
    (run k op 11 (invoke .nomain s)).pc = (.myexit, 2) ∧
    (run k op 11 (invoke .nomain s)).regs .rax = 60 ∧
    (run k op 11 (invoke .nomain s)).regs .rdi = 0 := by
  obtain ⟨-, hpc, hrax, hrdi, -⟩ := run_nomain_at_exit k op s
  refine ⟨?_, ?_, rfl, ?_, ?_, ?_, ?_, ?_, ?_, ?_, hpc, hrax, hrdi⟩
  all_goals
    obtain ⟨h1, h2, h3, h4, h5, h6, h7, h8⟩ := op.reg_ne
    simp [run, step, invoke, body, nomain, myprint, myexit, exec, State.setReg, State.next,
    trap, decode, wordSize, h1, h2, h3, h4, h5, h6, h7, h8]

/-- C9.  `nomain` makes exactly two system calls, whatever the registers, the
operand register and the kernel: the write request at the `syscall` of
`myprint`, then the exit request at the `syscall` of `myexit`, and no other.
The requests it adds to those made before are these two, in this order. -/
theorem nomain_two_syscalls (k : Kernel) (op : Operand) (s : State) (n : Nat) :
    (run k op (12 + n) (invoke .nomain s)).trace =
      s.trace ++ [.write 1 (s.str % wordSize) 13, .exit 0] ∧
    (run k op (12 + n) (invoke .nomain s)).trace.length = s.trace.length + 2 ∧
    (run k op 6 (invoke .nomain s)).pc = (.myprint, 5) ∧
    (run k op 6 (invoke .nomain s)).trace = s.trace ∧
    (run k op 7 (invoke .nomain s)).trace = s.trace ++ [.write 1 (s.str % wordSize) 13] ∧
    (run k op 11 (invoke .nomain s)).pc = (.myexit, 2) ∧
    (run k op 11 (invoke .nomain s)).trace = s.trace ++ [.write 1 (s.str % wordSize) 13] ∧
    (run k op (12 + n) (invoke .nomain s)).status = .exited 0 := by
  obtain ⟨-, hpc, -, -, htr⟩ := run_nomain_at_exit k op s
  obtain ⟨-, hpc6, -, -, -, htr6⟩ := run_nomain_at_write k op s
  rw [run_nomain_add, trace_run_nomain, status_run_nomain]
  refine ⟨rfl, by simp, hpc6, htr6, ?_, hpc, htr, rfl⟩
  obtain ⟨h1, h2, h3, h4, h5, h6, h7, h8⟩ := op.reg_ne
  simp [run, step, invoke, body, nomain, myprint, myexit, exec, State.setReg, State.next,
    trap, decode, wordSize, h1, h2, h3, h4, h5, h6, h7, h8]

/-- C10.  `nomain` is deterministic in its inputs.  Take two machine states
with the same value of `str` (a 64-bit pointer) and the same 13 bytes there,
and otherwise arbitrary registers, operand registers, memories and kernels.
The requests `nomain` makes are the same in both, at either trap the registers
`rax`, `rdi`, `rsi`, `rdx` hold the same values, the 13 bytes offered to write
are the same, and both end with exit code 0; when the kernels give the same
answer to the write, the same bytes are appended to descriptor 1. -/
theorem nomain_deterministic (k1 k2 : Kernel) (op1 op2 : Operand) (s1 s2 : State)
    (n1 n2 : Nat) (hstr : s1.str = s2.str) (hptr : s1.str < wordSize)
    (hmem : readBytes s1.mem s1.str 13 = readBytes s2.mem s2.str 13) :
    (run k1 op1 (12 + n1) (invoke .nomain s1)).trace.drop s1.trace.length =
      (run k2 op2 (12 + n2) (invoke .nomain s2)).trace.drop s2.trace.length ∧
    (run k1 op1 (12 + n1) (invoke .nomain s1)).status =
      (run k2 op2 (12 + n2) (invoke .nomain s2)).status ∧
    (run k1 op1 (12 + n1) (invoke .nomain s1)).status = .exited 0 ∧
    (∀ r, r = .rax ∨ r = .rdi ∨ r = .rsi ∨ r = .rdx →
      (run k1 op1 6 (invoke .nomain s1)).regs r = (run k2 op2 6 (invoke .nomain s2)).regs r ∧
      (run k1 op1 11 (invoke .nomain s1)).regs r =
        (run k2 op2 11 (invoke .nomain s2)).regs r) ∧
    readBytes (run k1 op1 6 (invoke .nomain s1)).mem
        ((run k1 op1 6 (invoke .nomain s1)).regs .rsi)
        ((run k1 op1 6 (invoke .nomain s1)).regs .rdx) =
      readBytes (run k2 op2 6 (invoke .nomain s2)).mem
        ((run k2 op2 6 (invoke .nomain s2)).regs .rsi)
        ((run k2 op2 6 (invoke .nomain s2)).regs .rdx) ∧
    ((k1 s1.trace.length).ret = (k2 s2.trace.length).ret →
      (run k1 op1 (12 + n1) (invoke .nomain s1)).out 1 = s1.out 1 ++
        readBytes s1.mem s1.str (transferred (k1 s1.trace.length).ret 13) ∧
      (run k2 op2 (12 + n2) (invoke .nomain s2)).out 1 = s2.out 1 ++
        readBytes s1.mem s1.str (transferred (k1 s1.trace.length).ret 13)) := by
  obtain ⟨-, -, hm1, hrsi1, hrdx1, -⟩ := run_nomain_at_write k1 op1 s1
  obtain ⟨-, -, hm2, hrsi2, hrdx2, -⟩ := run_nomain_at_write k2 op2 s2
  have hptr2 : s2.str < wordSize := hstr ▸ hptr
  have hregs : ∀ r, r = .rax ∨ r = .rdi ∨ r = .rsi ∨ r = .rdx →
      (run k1 op1 6 (invoke .nomain s1)).regs r = (run k2 op2 6 (invoke .nomain s2)).regs r ∧
      (run k1 op1 11 (invoke .nomain s1)).regs r =
        (run k2 op2 11 (invoke .nomain s2)).regs r := by
    intro r hr
    obtain ⟨ha, hb⟩ := regs_run_nomain k1 op1 s1 r hr
    obtain ⟨hc, hd⟩ := regs_run_nomain k2 op2 s2 r hr
    rw [ha, hb, hc, hd, hstr]
    exact ⟨rfl, rfl⟩
  rw [run_nomain_add, run_nomain_add, trace_run_nomain, trace_run_nomain,
    status_run_nomain, status_run_nomain, out_run_nomain, out_run_nomain,
    hm1, hm2, hrsi1, hrsi2, hrdx1, hrdx2,
    Nat.mod_eq_of_lt hptr, Nat.mod_eq_of_lt hptr2]
  refine ⟨by simp [hstr], rfl, rfl, hregs, hmem, ?_⟩
  intro hret
  refine ⟨rfl, ?_⟩
  rw [← hret]
  have hle := transferred_le (k1 s1.trace.length).ret 13
  rw [readBytes_take s2.mem s2.str hle, ← hmem, ← readBytes_take s1.mem s1.str hle]

/-- C10 at the processes `s0` and `s1`, one with the write accepted, one with
the descriptor closed. -/
theorem nomain_deterministic_witness :
    s0.str = s1.str ∧ s0.str < wordSize ∧
    readBytes s0.mem s0.str 13 = readBytes s1.mem s1.str 13 ∧
    (run kFull .rcx (12 + 0) (invoke .nomain s0)).trace.drop s0.trace.length =
      (run kClosed .r8 (12 + 1) (invoke .nomain s1)).trace.drop s1.trace.length :=
  ⟨rfl, by decide, by decide,
    (nomain_deterministic kFull kClosed .rcx .r8 s0 s1 0 1 rfl (by decide) (by decide)).1⟩

end HelloWorld
